import Mathlib

/-!
Verification of the info-feed-app YouTube/podcast audio pipeline.

This file gives a shallow embedding, in Lean 4, of the audio acquisition and
transcription code of the repository:

* `YouTubeAudioHelper` (src/backend/utils/producthunt-client.js): the
  four-tier audio download fallback, the per-strategy success checks, and
  `processYouTubeAudio` (download, transcribe, cleanup).
* `WhisperService` (whisper-service module): `transcribeAudio` (25 MB limit,
  20-minute prefix split), `transcribeAudioFile` (SDK / direct-HTTP / chunk
  strategy fallback), `transcribeWithSDK` (retry with exponential backoff on
  connection errors), `transcribeAudioFileDirect` (one HTTPS request),
  `transcribeWithSmallChunks` (10-minute chunk loop, at most 5 chunks), and
  `splitWithByteApproximation` (byte-proportional prefix split).
* `getYouTubeContent` (src/backend/utils/youtube-helper.js): the
  subtitle / audio / description orchestrator.

External effects (network calls, spawned tools, the file system) are modelled
as oracle parameters: each model takes the outcomes of its external calls as
explicit arguments and computes exactly the control flow of the JavaScript
source.  File sizes are in bytes (`Nat`); the JavaScript `size / (1024*1024)`
megabyte comparisons against the constants 25, 20, 10 and 0.1 are exact for
byte counts below 2^53 because division by 2^20 is exact in binary floating
point, so each comparison is translated to the equivalent exact byte
comparison.  Numeric interpolations inside error message strings
(`toFixed(2)` renderings) are omitted from the modelled messages; no branch
of the source depends on them.
-/

/-- Exact prefix match of one character list against another
(`leadMatch pat s` is true when `pat` is an initial segment of `s`). -/
def leadMatch : List Char → List Char → Bool
  | [], _ => true
  | _ :: _, [] => false
  | p :: ps, c :: cs => p == c && leadMatch ps cs

/-- Naive substring search on character lists. -/
def hasSegment (pat : List Char) : List Char → Bool
  | [] => leadMatch pat []
  | c :: cs => leadMatch pat (c :: cs) || hasSegment pat cs

/-- Model of the JavaScript `String.prototype.includes`. -/
def strHas (s pat : String) : Bool :=
  hasSegment pat.toList s.toList

/-- Model of the JavaScript `String.prototype.trim`: drop leading and
trailing whitespace. -/
def jsTrim (s : String) : String :=
  ⟨((s.toList.dropWhile Char.isWhitespace).reverse.dropWhile
      Char.isWhitespace).reverse⟩

/-- Model of the JavaScript `String.prototype.toLowerCase` (ASCII range). -/
def jsToLower (s : String) : String :=
  ⟨s.toList.map Char.toLower⟩

/-! ## AudioAcquirer: `YouTubeAudioHelper` download strategies -/

/-- Outcomes of the four download strategies of
`YouTubeAudioHelper.downloadAudioWithFallback`, in source order:
`downloadAudioWithYtdl`, `downloadAudio` (yt-dlp), `downloadAudioWithPytube`,
`downloadAudioWithYoutubeDl`.  Each is the settled promise of that strategy:
`.ok path` when it resolved, `.error msg` when it rejected. -/
structure DlEnv where
  ytdlCore : Except String String
  ytDlp : Except String String
  pytube : Except String String
  youtubeDl : Except String String

/-- Strategy names in the order the source tries them. -/
def dlNames : List String := ["ytdl-core", "yt-dlp", "pytube", "youtube-dl"]

/-- Model of `YouTubeAudioHelper.downloadAudioWithFallback`: try the four
strategies in fixed order inside nested try/catch blocks; return the first
resolved path; after the fourth failure throw, wrapping only the last
strategy error.  The second component records which strategies were
attempted, in order.  The source has no delay and no retry between download
strategies. -/
def downloadAudioWithFallback (env : DlEnv) : Except String String × List String :=
  match env.ytdlCore with
  | .ok p => (.ok p, ["ytdl-core"])
  | .error _ =>
    match env.ytDlp with
    | .ok p => (.ok p, ["ytdl-core", "yt-dlp"])
    | .error _ =>
      match env.pytube with
      | .ok p => (.ok p, ["ytdl-core", "yt-dlp", "pytube"])
      | .error _ =>
        match env.youtubeDl with
        | .ok p => (.ok p, dlNames)
        | .error e =>
          (.error ("音声ダウンロードに失敗しました: " ++ e), dlNames)

/-- Model of the `writeStream.on(finish)` success check of
`YouTubeAudioHelper.downloadAudioWithYtdl`: the download is resolved as a
success exactly when `fs.existsSync(outputPath)` holds.  The size of the
output file (second argument, in bytes) is not consulted by the source. -/
def ytdlFinishCheck (outputOnDisk : Bool) (sizeBytes : Nat) : Except String String :=
  if outputOnDisk then .ok "outputPath" else .error "Audio file was not created"

/-- Model of the `ytdlp.on(close)` success check of
`YouTubeAudioHelper.downloadAudio` (yt-dlp): success exactly when the exit
code is 0 and `fs.existsSync(finalAudioPath)` holds.  The size of the output
file (third argument, in bytes) is not consulted by the source. -/
def ytDlpCloseCheck (code : Nat) (outputOnDisk : Bool) (sizeBytes : Nat) :
    Except String String :=
  if code = 0 then
    if outputOnDisk then .ok "finalAudioPath"
    else .error "Audio file was not created"
  else .error "Audio download failed"

/-! ## AudioChunker: `WhisperService.splitWithByteApproximation` -/

/-- Estimated total duration in minutes used by the byte-approximation
splitters: `Math.max(30, inputSizeMB * 1.5)`. -/
def estimatedTotalMinutes (sizeBytes : Nat) : ℚ :=
  max 30 ((sizeBytes : ℚ) / 1048576 * (3 / 2))

/-- Target byte count of the prefix copy:
`Math.floor(inputStats.size * (durationMinutes / estimatedTotalMinutes))`. -/
def splitTargetBytes (sizeBytes : Nat) (durationMinutes : ℚ) : Int :=
  Int.floor ((sizeBytes : ℚ) * (durationMinutes / estimatedTotalMinutes sizeBytes))

/-- Byte budget of the copied prefix:
`Math.min(targetBytes, 20 * 1024 * 1024)`. -/
def splitMaxBytes (sizeBytes : Nat) (durationMinutes : ℚ) : Int :=
  min (splitTargetBytes sizeBytes durationMinutes) (20 * 1048576)

/-- Size in bytes of the output file of
`WhisperService.splitWithByteApproximation`: the source copies the byte range
`[0, maxBytes - 1]` of the input, so the output holds
`min maxBytes inputSize` bytes (a read stream past end-of-file stops at the
end of the input). -/
def splitWithByteApproximation (sizeBytes : Nat) (durationMinutes : ℚ) : Nat :=
  min (splitMaxBytes sizeBytes durationMinutes).toNat sizeBytes

/-! ## TranscriptionEngine: `WhisperService.transcribeWithSDK` -/

/-- Shape of an error thrown by an OpenAI SDK call, as far as
`WhisperService.transcribeWithSDK` inspects it: the message text, the
optional Node error code, and the optional HTTP error payload of
`error.response.data.error.message`. -/
structure ApiErr where
  message : String
  code : Option String
  responseMsg : Option String

/-- Model of the `isConnectionError` classification inside
`WhisperService.transcribeWithSDK`: the lower-cased message contains
`connection`, `network` or `timeout`, or the error code is `ECONNRESET`,
`ENOTFOUND` or `ETIMEDOUT`. -/
def isConnectionError (e : ApiErr) : Bool :=
  strHas (jsToLower e.message) "connection" ||
  strHas (jsToLower e.message) "network" ||
  strHas (jsToLower e.message) "timeout" ||
  e.code == some "ECONNRESET" ||
  e.code == some "ENOTFOUND" ||
  e.code == some "ETIMEDOUT"

/-- Retry cap of `transcribeWithSDK`: `fileSizeMB > 10 ? 2 : 1`. -/
def sdkMaxRetries (sizeBytes : Nat) : Nat :=
  if 10485760 < sizeBytes then 2 else 1

/-- Base backoff of `transcribeWithSDK` in milliseconds:
`fileSizeMB > 10 ? 5000 : 2000`. -/
def sdkBaseWaitTime (sizeBytes : Nat) : Nat :=
  if 10485760 < sizeBytes then 5000 else 2000

/-- Final error message produced when `transcribeWithSDK` gives up on an
error (the error-shaping tail of its catch block).  The connection-error
branch runs a network diagnosis whose outcome only refines the message text;
it is summarised here by its fixed message stem. -/
def sdkFinalMsg (e : ApiErr) : String :=
  if isConnectionError e then "Connection error: " ++ e.message
  else
    match e.responseMsg with
    | some m => "Whisper API error: " ++ m
    | none => "Failed to transcribe audio: " ++ e.message

/-- Retry loop of `WhisperService.transcribeWithSDK`, for
`attempt = a, a+1, ...` with the given fuel (the source iterates
`attempt = 0 .. maxRetries`).  The oracle gives each attempt's outcome.
Returns the result together with the list of backoff waits (in ms) performed
before the second and later attempts: before attempt `k > 0` the source
waits `baseWaitTime * 2^(k-1)`.  It re-enters the loop only when the attempt
failed, `attempt < maxRetries`, and the error is classified as a connection
error; otherwise it throws. -/
def sdkLoop (oracle : Nat → Except ApiErr String) (base maxRetries : Nat) :
    Nat → Nat → Except String String × List Nat
  | _, 0 => (.error "All transcription strategies failed", [])
  | a, fuel + 1 =>
    let w : List Nat := if a = 0 then [] else [base * 2 ^ (a - 1)]
    match oracle a with
    | .ok t => (.ok t, w)
    | .error e =>
      if a < maxRetries ∧ isConnectionError e then
        let r := sdkLoop oracle base maxRetries (a + 1) fuel
        (r.1, w ++ r.2)
      else (.error (sdkFinalMsg e), w)

/-- Model of `WhisperService.transcribeWithSDK`: run the retry loop from
attempt 0 with exactly `maxRetries + 1` available attempts. -/
def transcribeWithSDK (oracle : Nat → Except ApiErr String) (sizeBytes : Nat) :
    Except String String × List Nat :=
  sdkLoop oracle (sdkBaseWaitTime sizeBytes) (sdkMaxRetries sizeBytes) 0
    (sdkMaxRetries sizeBytes + 1)

/-! ## TranscriptionEngine: `WhisperService.transcribeAudioFileDirect` -/

/-- Outcome of one HTTPS request of `transcribeAudioFileDirect`: a completed
response with status and body, a request error with message and code, or the
5-minute timeout. -/
inductive HttpAttempt where
  | completed (status : Nat) (body : String)
  | netErr (msg code : String)
  | timedOut

/-- Model of `WhisperService.transcribeAudioFileDirect`.  After the API-key
and file-existence guards it issues exactly one HTTPS request; the oracle is
indexed by attempt number to make that explicit — only attempt 0 is ever
consulted, there is no retry.  A 200 response resolves with the trimmed
body; any other status rejects (the JSON error-message extraction from the
body is abstracted to the raw body text); request errors and the timeout
reject with their fixed message stems. -/
def transcribeAudioFileDirect (hasKey fileOnDisk : Bool)
    (oracle : Nat → HttpAttempt) : Except String String :=
  if hasKey = false then .error "OpenAI API key not configured"
  else if fileOnDisk = false then .error "Audio file not found"
  else
    match oracle 0 with
    | .completed 200 body => .ok (jsTrim body)
    | .completed _ body => .error ("Direct HTTP API error: " ++ body)
    | .netErr m c =>
      .error ("Direct HTTP connection error: " ++ m ++ " (Code: " ++ c ++ ")")
    | .timedOut => .error "Direct HTTP request timeout after 5 minutes"

/-! ## TranscriptionEngine: `WhisperService.transcribeWithSmallChunks` -/

/-- Outcome of `createAudioChunk(audioFilePath, i * chunkMinutes,
chunkMinutes)` for chunk index `i`: the promise rejected, resolved `null`
(no output file, or an FFmpeg-level near-empty file — end of audio), or
resolved a chunk file of the given size in bytes. -/
inductive CreateRes where
  | errC (msg : String)
  | missing
  | made (sizeBytes : Nat)

/-- Oracles of one `transcribeWithSmallChunks` run, indexed by chunk index:
the outcome of creating chunk `i` and the outcome of
`transcribeAudioFileDirect` on chunk `i`'s file. -/
structure ChunkEnv where
  create : Nat → CreateRes
  transcribe : Nat → Except String String

/-- Transcription text of chunk `i` (only meaningful when the transcription
succeeded). -/
def tOf (env : ChunkEnv) (i : Nat) : String :=
  match env.transcribe i with
  | .ok t => t
  | .error _ => ""

/-- Accumulation step of the combined transcription: when the chunk text has
a non-empty trim, append `\n\n` (when the accumulator is non-empty) and then
the ordinal label `[Part i+1]` and the trimmed text; otherwise keep the
accumulator. -/
def appendPart (acc : String) (i : Nat) (t : String) : String :=
  if jsTrim t = "" then acc
  else (if acc = "" then acc else acc ++ "\n\n") ++
    "[Part " ++ toString (i + 1) ++ "]\n" ++ jsTrim t

/-- Result of the chunk loop: `thrown` when the loop body threw out of the
loop (only possible at chunk index 0), `finished` when the loop ran to
completion or broke.  Both carry the combined transcription so far and the
list of chunk indices pushed onto `tempChunkPaths`. -/
inductive LoopRes where
  | thrown (msg : String) (made : List Nat)
  | finished (combined : String) (made : List Nat)

/-- Chunk indices recorded by a loop result. -/
def madeOf : LoopRes → List Nat
  | .thrown _ made => made
  | .finished _ made => made

/-- Prepend chunk indices to the record of a loop result. -/
def withMade (l : List Nat) : LoopRes → LoopRes
  | .thrown m made => .thrown m (l ++ made)
  | .finished c made => .finished c (l ++ made)

/-- Chunk loop of `WhisperService.transcribeWithSmallChunks`, from chunk
index `i` with the given remaining fuel (the source runs
`chunkIndex = 0 .. maxChunks - 1`, i.e. fuel `maxChunks` from index 0).
Per iteration: create the chunk (a rejection is rethrown at index 0 and
breaks otherwise); a `null` chunk breaks; a chunk below 0.1 MB
(`sizeBytes * 10 < 1048576`, the exact byte form of `chunkSizeMB < 0.1`) is
cleaned up and breaks; otherwise the chunk is pushed and transcribed (a
transcription error is rethrown at index 0 and breaks otherwise), and a
non-empty trimmed text is appended with its `[Part i+1]` label. -/
def chunkLoop (env : ChunkEnv) : Nat → Nat → String → LoopRes
  | _, 0, acc => .finished acc []
  | i, fuel + 1, acc =>
    match env.create i with
    | .errC m =>
      if i = 0 then
        .thrown ("Failed to process first audio chunk: " ++ m) []
      else .finished acc []
    | .missing => .finished acc []
    | .made s =>
      if s * 10 < 1048576 then .finished acc []
      else
        match env.transcribe i with
        | .error m =>
          if i = 0 then
            .thrown ("Failed to process first audio chunk: " ++ m) [i]
          else .finished acc [i]
        | .ok t =>
          match chunkLoop env (i + 1) fuel (appendPart acc i t) with
          | .thrown m made => .thrown m (i :: made)
          | .finished c made => .finished c (i :: made)

/-- Trailer appended to a successful chunked transcription (the
`[注: ...]` metadata note, with the number of processed chunks). -/
def smallChunksNote (n : Nat) : String :=
  "\n\n[注: 音声ファイルを" ++ toString n ++ "個のチャンクに分割して処理しました]"

/-- Model of `WhisperService.transcribeWithSmallChunks`.  A file of at most
20 MB (`sizeBytes ≤ 20971520`, the exact byte form of `fileSizeMB <= 20`) is
sent to `transcribeAudioFileDirect` unchanged — its outcome is the `direct`
argument — and no chunking happens.  Otherwise the chunk loop runs with
`chunkDurationMinutes = 10` and `maxChunks = 5`; an escaped throw or an
empty combined transcription is wrapped into a `Small chunk processing
failed` error, and otherwise the combined text plus the chunk-count note is
returned.  The second component records whether the chunk loop was entered
(i.e. whether the input file was split at all); the `finally` block deletes
every pushed chunk file, so no chunk file survives the call on any path. -/
def transcribeWithSmallChunks (env : ChunkEnv) (sizeBytes : Nat)
    (direct : Except String String) : Except String String × Bool :=
  if sizeBytes ≤ 20971520 then (direct, false)
  else
    match chunkLoop env 0 5 "" with
    | .thrown m _ => (.error ("Small chunk processing failed: " ++ m), true)
    | .finished c made =>
      if jsTrim c = "" then
        (.error
          "Small chunk processing failed: No transcription data obtained from any chunks",
          true)
      else (.ok (c ++ smallChunksNote made.length), true)

/-! ## TranscriptionEngine: `WhisperService.transcribeAudioFile` -/

/-- Oracles of one `transcribeAudioFile` run: the per-attempt SDK outcomes,
the API-key and file guards and per-attempt HTTP outcomes of the direct
strategy, and the chunk oracles of the chunk strategy. -/
structure StratEnv where
  sdk : Nat → Except ApiErr String
  hasKey : Bool
  fileOnDisk : Bool
  http : Nat → HttpAttempt
  chunk : ChunkEnv

/-- Model of `WhisperService.transcribeAudioFile`: try the three strategies
`OpenAI SDK`, `Direct HTTP`, `Small Chunk` in order, each inside the
strategy loop's try/catch; return the first success; when all three fail the
source throws `lastError`, the error of the last (chunk) strategy.  The 2
second pause between strategies is untimed here.  The second component
records whether the chunk strategy split the file. -/
def transcribeAudioFile (env : StratEnv) (sizeBytes : Nat) :
    Except String String × Bool :=
  match (transcribeWithSDK env.sdk sizeBytes).1 with
  | .ok t => (.ok t, false)
  | .error _ =>
    match transcribeAudioFileDirect env.hasKey env.fileOnDisk env.http with
    | .ok t => (.ok t, false)
    | .error _ =>
      transcribeWithSmallChunks env.chunk sizeBytes
        (transcribeAudioFileDirect env.hasKey env.fileOnDisk env.http)

/-! ## TranscriptionEngine: `WhisperService.transcribeAudio` -/

/-- Oracles of one `transcribeAudio` run: the client guard, the
file-existence guard, the source file size, the outcome of
`splitAudioFile(audioFilePath, 20)` (`some s` = a split file of `s` bytes
was produced; `none` = the split failed — `splitAudioFile` wraps every
failure into the fixed message `Failed to split audio file`), and the
outcomes of `transcribeAudioFile` on the split file and on the original
file. -/
structure AudioEnv where
  hasClient : Bool
  fileOnDisk : Bool
  sizeBytes : Nat
  split20 : Option Nat
  tSplit : Except String String
  tOrig : Except String String

/-- Note appended to a prefix-only transcription of an oversized file. -/
def splitNote : String :=
  "\n\n[注: 音声ファイルが大きすぎるため、冒頭20分間のみを転写しました]"

/-- Catch block of the oversized path of `transcribeAudio`: dispatch on the
text of the caught error.  A `too large even after splitting` error is
rethrown unchanged; a split failure becomes the plain `Audio file too
large` error; anything else (the split succeeded but transcription failed)
is wrapped into the Japanese split-succeeded-but-recognition-failed
message. -/
def audioCatch (m : String) : Except String String :=
  if strHas m "Audio file too large even after splitting" then .error m
  else if strHas m "Failed to split" || strHas m "splitting failed" then
    .error "Audio file too large: (max 25 MB)"
  else
    .error
      ("音声ファイルを約20MBに分割しましたが、音声認識処理中にエラーが発生しました: " ++ m)

/-- Message thrown when the split file still exceeds 25 MB (numeric size
rendering omitted). -/
def tooLargeAfterSplitMsg : String :=
  "Audio file too large even after splitting: (max 25 MB). Please use a shorter audio file."

/-- Model of `WhisperService.transcribeAudio`.  Guards first; a file over
25 MB (`26214400 < sizeBytes`, the exact byte form of `fileSizeMB > 25`)
enters the split path: split to the first 20 minutes, clean up and throw
when the split file is still over 25 MB, otherwise transcribe the split
file, clean it up and return the text with the prefix note appended.  The
second component records whether the split file is still on disk when the
call returns: the source deletes it on the success path and on the
too-large-after-split path, but the catch block does not delete it when
`transcribeAudioFile` on the split file throws. -/
def transcribeAudio (env : AudioEnv) : Except String String × Bool :=
  if env.hasClient = false then
    (.error "OpenAI API key not configured for Whisper service", false)
  else if env.fileOnDisk = false then (.error "Audio file not found", false)
  else if 26214400 < env.sizeBytes then
    match env.split20 with
    | none => (audioCatch "Failed to split audio file", false)
    | some s =>
      if 26214400 < s then (audioCatch tooLargeAfterSplitMsg, false)
      else
        match env.tSplit with
        | .ok t => (.ok (t ++ splitNote), false)
        | .error m => (audioCatch m, true)
  else (env.tOrig, false)

/-! ## `YouTubeAudioHelper.processYouTubeAudio` -/

/-- Model of `YouTubeAudioHelper.processYouTubeAudio`: download via the
four-tier fallback, transcribe via `YouTubeAudioHelper.transcribeAudio`
(which wraps `WhisperService.transcribeAudio` errors into the Japanese
transcription-failed message), and in `finally` delete the downloaded file.
The second component lists the temporary audio files of the call still on
disk when it returns: the downloaded file is always cleaned up, but a split
file leaked by `WhisperService.transcribeAudio` survives, since
`processYouTubeAudio` knows nothing of it. -/
def processYouTubeAudio (denv : DlEnv) (aenv : AudioEnv) :
    Except String String × List String :=
  match (downloadAudioWithFallback denv).1 with
  | .error e => (.error e, [])
  | .ok _ =>
    let r := transcribeAudio aenv
    let left : List String := if r.2 then ["split_file"] else []
    match r.1 with
    | .ok t => (.ok t, left)
    | .error m => (.error ("音声の文字起こしに失敗しました: " ++ m), left)

/-! ## Orchestrator: `getYouTubeContent` (youtube-helper.js) -/

/-- Outcomes of the three content stages for one `getYouTubeContent` run:
`getYouTubeTranscript`, `getYouTubeAudioTranscription`,
`getYouTubeDescription`. -/
structure OrchEnv where
  transcript : Except String String
  audioT : Except String String
  description : Except String String

/-- One entry of the `methods` attempt trace of `getYouTubeContent`. -/
structure MethodAttempt where
  method : String
  success : Bool
  errMsg : Option String
deriving DecidableEq

/-- Successful result shape of `getYouTubeContent`. -/
structure ContentResult where
  content : String
  method : String
  methods : List MethodAttempt
  length : Nat
deriving DecidableEq

/-- Message thrown by `getYouTubeContent` when no stage produced content.
It is a fixed string: the collected `methods` trace is not attached to it. -/
def noContentMsg : String :=
  "字幕、説明文、音声のいずれからもコンテンツを取得できませんでした。手動要約をお試しください。"

/-- Model of `getYouTubeContent`: try subtitles, then audio transcription,
then the description, recording one `methods` entry per attempted stage; on
the first success stop and return the content, method name, trace and
length; when no stage succeeded (or the successful content is the empty
string, which is falsy in the source) throw the fixed `noContentMsg`
error. -/
def getYouTubeContent (env : OrchEnv) : Except String ContentResult :=
  match env.transcript with
  | .ok c =>
    if c = "" then .error noContentMsg
    else .ok ⟨c, "transcript", [⟨"transcript", true, none⟩], c.length⟩
  | .error e1 =>
    match env.audioT with
    | .ok c =>
      if c = "" then .error noContentMsg
      else
        .ok ⟨c, "audio",
          [⟨"transcript", false, some e1⟩, ⟨"audio", true, none⟩], c.length⟩
    | .error e2 =>
      match env.description with
      | .ok c =>
        if c = "" then .error noContentMsg
        else
          .ok ⟨c, "description",
            [⟨"transcript", false, some e1⟩, ⟨"audio", false, some e2⟩,
              ⟨"description", true, none⟩], c.length⟩
      | .error _ => .error noContentMsg

/-! ## Derived chunk-loop notions used by the theorems -/

/-- Chunk `i` was created, survives the 0.1 MB minimum-size check, and its
transcription succeeded (the condition for the loop to proceed past chunk
`i` into the next iteration). -/
def goodChunkB (env : ChunkEnv) (i : Nat) : Bool :=
  match env.create i, env.transcribe i with
  | .made s, .ok _ => decide (1048576 ≤ s * 10)
  | _, _ => false

/-- Chunk `i` was created and survives the 0.1 MB minimum-size check (chunk
production succeeded at index `i`, regardless of transcription). -/
def okCreatedB (env : ChunkEnv) (i : Nat) : Bool :=
  match env.create i with
  | .made s => decide (1048576 ≤ s * 10)
  | _ => false

/-- Combined transcription accumulated by `f` consecutive good loop
iterations starting at chunk index `start`. -/
def accAfter (env : ChunkEnv) : Nat → Nat → String → String
  | _, 0, acc => acc
  | start, f + 1, acc =>
    accAfter env (start + 1) f (appendPart acc start (tOf env start))

/-- Combined transcription of the first `j` chunks, labelled `[Part 1]` ..
`[Part j]` in order. -/
def partsConcat (env : ChunkEnv) (j : Nat) : String :=
  accAfter env 0 j ""

/-! ## Concrete runs used as witnesses and counterexamples -/

/-- Download run whose first strategy succeeds. -/
def dlEnvOk : DlEnv :=
  ⟨.ok "temp/abc.mp4", .error "unused", .error "unused", .error "unused"⟩

/-- Download run where ytdl-core fails and yt-dlp succeeds. -/
def dlEnvSecond : DlEnv :=
  ⟨.error "Status code: 410", .ok "temp/abc.mp3", .error "unused", .error "unused"⟩

/-- Oversized (30 MB) source whose 20-minute split file (15 MB) is produced,
but whose transcription of the split file times out. -/
def audioEnvLeak : AudioEnv :=
  ⟨true, true, 31457280, some 15728640,
    .error "Direct HTTP request timeout after 5 minutes", .ok "unused"⟩

/-- Oversized (30 MB) source whose 20-minute split file (10 MB) is produced
and transcribed successfully. -/
def audioEnvSplitOk : AudioEnv :=
  ⟨true, true, 31457280, some 10485760, .ok "こんにちは", .ok "unused"⟩

/-- A transcription run for a 22 MB file where the SDK strategy fails with a
permanent error, the direct strategy fails with a connection reset, and the
chunk strategy splits and succeeds. -/
def stratEnvChunked : StratEnv where
  sdk := fun _ => .error ⟨"Invalid API key provided", none, none⟩
  hasKey := true
  fileOnDisk := true
  http := fun _ => .netErr "socket hang up" "ECONNRESET"
  chunk :=
    ⟨fun i => if i ≤ 1 then .made 10485760 else .missing,
      fun i => if i = 0 then .ok "テキスト" else .ok "続き"⟩

/-- Chunk run whose first chunk transcribes to `hello` and whose second
chunk's transcription fails. -/
def chunkEnvStops : ChunkEnv :=
  ⟨fun i => if i ≤ 1 then .made 1048576 else .missing,
    fun i => if i = 0 then .ok "hello" else .error "boom"⟩

/-- Chunk run with three good chunks followed by end of audio. -/
def chunkEnvThree : ChunkEnv :=
  ⟨fun i => if i ≤ 2 then .made 2097152 else .missing,
    fun i => .ok ("part" ++ toString i)⟩

/-- SDK attempt oracle whose first attempt hits a permanent
(non-connection) error. -/
def sdkOraclePermanent : Nat → Except ApiErr String :=
  fun _ => .error ⟨"Incorrect API key provided", none, some "invalid api key"⟩

/-- Direct-HTTP attempt oracle whose first attempt times out; any retry
would succeed, but the source never retries. -/
def httpOracleTimeout : Nat → HttpAttempt :=
  fun i => if i = 0 then .timedOut else .completed 200 "hello"

/-- Orchestrator run where every stage fails with network-style errors. -/
def orchEnvNetFail : OrchEnv :=
  ⟨.error "no captions", .error "ECONNRESET", .error "timeout"⟩

/-- Orchestrator run where every stage fails with content-style errors. -/
def orchEnvNoData : OrchEnv :=
  ⟨.error "Transcript is disabled", .error "Invalid API key",
    .error "動画の説明文が短すぎるか存在しません"⟩

/-- Orchestrator run where only the description stage succeeds. -/
def orchEnvDescOk : OrchEnv :=
  ⟨.error "no captions", .error "download failed", .ok "タイトル: demo"⟩

/-! ## Shared lemmas -/

/-- The catch block of the oversized path always rethrows: it never produces
a successful result. -/
lemma audioCatch_is_error (m : String) : ∃ e, audioCatch m = .error e := by
  unfold audioCatch
  split
  · exact ⟨m, rfl⟩
  · split
    · exact ⟨_, rfl⟩
    · exact ⟨_, rfl⟩

/-! ## C10: byte-approximation split is capped at 20 MB -/

/-- C10.  `splitWithByteApproximation` estimates the total duration as
`max 30 (1.5 * sizeMB)` minutes and copies the proportional byte range
`[0, min targetBytes (20 MB) - 1]` of the input, so for every input size
and every requested prefix duration the output file holds at most
20 MB = 20971520 bytes. -/
theorem c10_byte_split_capped (sizeBytes : Nat) (durationMinutes : ℚ) :
    splitWithByteApproximation sizeBytes durationMinutes ≤ 20971520 := by
  unfold splitWithByteApproximation
  refine le_trans (Nat.min_le_left _ _) ?_
  unfold splitMaxBytes
  exact Int.toNat_le.mpr (min_le_right _ _)

/-! ## C5: download success checks do not look at the output size -/

/-- C5 counterexample.  The finish handler of `downloadAudioWithYtdl`
accepts a zero-byte output file as a success: the success decision only
tests that the file exists, contradicting the claim that near-zero-byte
results are rejected as failures. -/
theorem c5_counterexample : ytdlFinishCheck true 0 = .ok "outputPath" := rfl

/-- C5 amended.  A completed download is treated as a success exactly when
the output file exists (for yt-dlp, additionally the exit code is 0); the
output file size plays no role in the decision, so near-zero-byte files are
accepted as successes. -/
theorem c5_success_ignores_size (onDisk : Bool) (sizeBytes : Nat) :
    (ytdlFinishCheck onDisk sizeBytes = ytdlFinishCheck onDisk 0) ∧
    ((∃ p, ytdlFinishCheck onDisk sizeBytes = .ok p) ↔ onDisk = true) ∧
    ∀ code, (ytDlpCloseCheck code onDisk sizeBytes = ytDlpCloseCheck code onDisk 0) ∧
      ((∃ p, ytDlpCloseCheck code onDisk sizeBytes = .ok p) ↔
        code = 0 ∧ onDisk = true) := by
  refine ⟨rfl, ?_, fun code => ⟨rfl, ?_⟩⟩
  · cases onDisk <;> simp [ytdlFinishCheck]
  · rcases Nat.eq_zero_or_pos code with h | h
    · subst h
      cases onDisk <;> simp [ytDlpCloseCheck]
    · cases onDisk <;> simp [ytDlpCloseCheck, Nat.pos_iff_ne_zero.mp h]

/-! ## C4: four-tier download fallback order -/

/-- C4.  `downloadAudioWithFallback` attempts the strategies in the fixed
order ytdl-core, yt-dlp, pytube, youtube-dl; the list of attempted
strategies is always an initial segment of that order of length at least 1;
each strategy is attempted at most once (the attempt list never repeats a
name); the call succeeds with the first strategy that succeeds, having
attempted exactly the strategies up to it; and it returns failure only
after all four strategies have been attempted. -/
theorem c4_fallback_order (env : DlEnv) :
    ((downloadAudioWithFallback env).2 =
      dlNames.take (downloadAudioWithFallback env).2.length) ∧
    (1 ≤ (downloadAudioWithFallback env).2.length) ∧
    ((downloadAudioWithFallback env).2.Nodup) ∧
    (∀ e, (downloadAudioWithFallback env).1 = .error e →
      (downloadAudioWithFallback env).2 = dlNames) ∧
    (∀ p, env.ytdlCore = .ok p →
      downloadAudioWithFallback env = (.ok p, ["ytdl-core"])) ∧
    (∀ e1 p, env.ytdlCore = .error e1 → env.ytDlp = .ok p →
      downloadAudioWithFallback env = (.ok p, ["ytdl-core", "yt-dlp"])) ∧
    (∀ e1 e2 p, env.ytdlCore = .error e1 → env.ytDlp = .error e2 →
      env.pytube = .ok p →
      downloadAudioWithFallback env = (.ok p, ["ytdl-core", "yt-dlp", "pytube"])) ∧
    (∀ e1 e2 e3 p, env.ytdlCore = .error e1 → env.ytDlp = .error e2 →
      env.pytube = .error e3 → env.youtubeDl = .ok p →
      downloadAudioWithFallback env = (.ok p, dlNames)) ∧
    (∀ e1 e2 e3 e4, env.ytdlCore = .error e1 → env.ytDlp = .error e2 →
      env.pytube = .error e3 → env.youtubeDl = .error e4 →
      downloadAudioWithFallback env =
        (.error ("音声ダウンロードに失敗しました: " ++ e4), dlNames)) := by
  rcases env with ⟨a, b, c, d⟩
  rcases a with pa | ea <;> rcases b with pb | eb <;> rcases c with pc | ec <;>
    rcases d with pd | ed <;>
      simp [downloadAudioWithFallback, dlNames] <;>
        (intro e1 e2 e3 e4 h1 h2 h3 h4; rw [h4])

/-- C4 witness: with ytdl-core failing and yt-dlp succeeding, exactly the
first two strategies are attempted and the yt-dlp path is returned. -/
theorem c4_fallback_order_witness :
    downloadAudioWithFallback dlEnvSecond = (.ok "temp/abc.mp3", ["ytdl-core", "yt-dlp"]) :=
  (c4_fallback_order dlEnvSecond).2.2.2.2.2.1 "Status code: 410" "temp/abc.mp3" rfl rfl

/-! ## C1: the split prefix file can outlive the call -/

/-- C1.  Resource-cleanup invariant violated: on the concrete run where the
download succeeds, the 30 MB source is split to a 15 MB prefix file, and
transcription of that prefix fails, `processYouTubeAudio` throws — but the
split prefix file is still on disk when it does, because the catch block of
`WhisperService.transcribeAudio` does not delete the split file when
`transcribeAudioFile` on it throws (and `processYouTubeAudio`'s `finally`
only deletes the downloaded file). -/
theorem c1_split_prefix_leak :
    (processYouTubeAudio dlEnvOk audioEnvLeak).2 = ["split_file"] ∧
    (processYouTubeAudio dlEnvOk audioEnvLeak).1 =
      .error ("音声の文字起こしに失敗しました: 音声ファイルを約20MBに分割しましたが、音声認識処理中にエラーが発生しました: Direct HTTP request timeout after 5 minutes") := by
  exact ⟨rfl, rfl⟩

/-! ## C2: oversized assets are split to a prefix and marked as such -/

/-- C2.  For every run on an asset over the 25 MB limit
(`26214400 < sizeBytes`) that returns successfully, the source was split by
`splitAudioFile(path, 20)` to a prefix file which passed the 25 MB check,
the returned text is the transcription of that prefix file (not of the
original), the prefix note marking the result as a partial 20-minute
transcription is appended to it, and no split file is left on disk. -/
theorem c2_oversized_split_marked (env : AudioEnv) (t : String) (b : Bool)
    (hsize : 26214400 < env.sizeBytes)
    (h : transcribeAudio env = (.ok t, b)) :
    ∃ s, env.split20 = some s ∧ s ≤ 26214400 ∧
      ∃ core, env.tSplit = .ok core ∧ t = core ++ splitNote ∧ b = false := by
  rcases env with ⟨hc, fd, sz, sp, ts, tro⟩
  simp only at hsize ⊢
  cases hc
  · simp [transcribeAudio] at h
  · cases fd
    · simp [transcribeAudio] at h
    · rcases sp with _ | s
      · simp only [transcribeAudio, hsize, if_true, if_neg] at h
        obtain ⟨e, he⟩ := audioCatch_is_error "Failed to split audio file"
        simp [he] at h
      · simp only [transcribeAudio, hsize, if_true, if_neg] at h
        by_cases hs : 26214400 < s
        · obtain ⟨e, he⟩ := audioCatch_is_error tooLargeAfterSplitMsg
          simp [hs, he] at h
        · rcases ts with m | core
          · obtain ⟨e, he⟩ := audioCatch_is_error m
            simp [hs, he] at h
          · simp [transcribeAudio, hs] at h
            exact ⟨s, rfl, by omega, core, rfl, h.1.symm, h.2⟩

/-- C2 witness: a 30 MB source with a 10 MB split prefix that transcribes to
`こんにちは` satisfies the hypotheses, and the conclusion exhibits the
prefix transcription plus the partial-note marker. -/
theorem c2_oversized_split_marked_witness :
    ∃ s, audioEnvSplitOk.split20 = some s ∧ s ≤ 26214400 ∧
      ∃ core, audioEnvSplitOk.tSplit = .ok core ∧
        "こんにちは" ++ splitNote = core ++ splitNote ∧ false = false :=
  c2_oversized_split_marked audioEnvSplitOk ("こんにちは" ++ splitNote) false
    (by decide) (by rfl)

/-! ## C9: total failure throws a fixed message without the trace -/

/-- C9 counterexample.  Two total-failure runs whose stages fail for
entirely different reasons produce the very same error value: the thrown
error is the fixed `noContentMsg` string, carries no per-strategy attempt
trace, and therefore does not let a caller distinguish which methods failed
or why, contrary to the claim. -/
theorem c9_counterexample :
    getYouTubeContent orchEnvNetFail = getYouTubeContent orchEnvNoData ∧
    orchEnvNetFail.audioT ≠ orchEnvNoData.audioT := by
  refine ⟨rfl, fun hEq => absurd (Except.error.inj hEq) ?_⟩
  decide

/-- C9 amended.  When every stage (subtitles, audio pipeline, description)
fails, `getYouTubeContent` throws the fixed `noContentMsg` error, which does
not carry the attempts trace; the per-strategy trace — one entry per
attempted strategy with its error message — is accumulated in `methods` but
is only returned on a successful run, as the success case shows. -/
theorem c9_total_failure_fixed_error :
    (∀ env e1 e2 e3, env.transcript = .error e1 → env.audioT = .error e2 →
      env.description = .error e3 → getYouTubeContent env = .error noContentMsg) ∧
    (∀ env e1 e2 c, env.transcript = .error e1 → env.audioT = .error e2 →
      env.description = .ok c → c ≠ "" →
      getYouTubeContent env =
        .ok ⟨c, "description",
          [⟨"transcript", false, some e1⟩, ⟨"audio", false, some e2⟩,
            ⟨"description", true, none⟩], c.length⟩) := by
  constructor
  · intro env e1 e2 e3 h1 h2 h3
    simp [getYouTubeContent, h1, h2, h3]
  · intro env e1 e2 c h1 h2 h3 hc
    simp [getYouTubeContent, h1, h2, h3, hc]

/-- C9 amended witness: the all-fail network run throws exactly
`noContentMsg`. -/
theorem c9_total_failure_fixed_error_witness :
    getYouTubeContent orchEnvNetFail = .error noContentMsg :=
  c9_total_failure_fixed_error.1 orchEnvNetFail "no captions" "ECONNRESET"
    "timeout" rfl rfl rfl

/-! ## C6: retry/backoff policy of the transcription strategies -/

/-- From any attempt index `a ≥ 1` on, the waits recorded by the SDK retry
loop are `base * 2^(a-1)`, `base * 2^a`, ..., i.e. consecutive powers of two
times the base wait, and there are at most `mr - a + 1` of them. -/
lemma sdkLoop_waits (oracle : Nat → Except ApiErr String) (base mr : Nat) :
    ∀ fuel a, 1 ≤ a →
      ∃ n, n ≤ mr - a + 1 ∧
        (sdkLoop oracle base mr a fuel).2 =
          (List.range n).map (fun i => base * 2 ^ (a - 1 + i)) := by
  intro fuel
  induction fuel with
  | zero => exact fun a _ => ⟨0, by omega, by simp [sdkLoop]⟩
  | succ f ih =>
    intro a ha
    have ha0 : ¬ a = 0 := by omega
    by_cases hor : ∃ e, oracle a = .error e
    · obtain ⟨e, he⟩ := hor
      by_cases hc : a < mr ∧ isConnectionError e = true
      · obtain ⟨n, hn, hw⟩ := ih (a + 1) (by omega)
        refine ⟨n + 1, by omega, ?_⟩
        simp only [sdkLoop, he, hc, and_self, if_true, ha0, if_false, hw]
        rw [List.range_succ_eq_map, List.map_cons, List.map_map,
          List.singleton_append]
        congr 1
        refine List.map_congr_left fun i _ => ?_
        simp only [Function.comp_apply]
        rw [show a + 1 - 1 + i = a - 1 + (i + 1) from by omega]
      · refine ⟨1, by omega, ?_⟩
        simp [sdkLoop, he, hc, ha0, show List.range 1 = [0] from rfl]
    · have : ∃ t, oracle a = .ok t := by
        cases h : oracle a
        · exact absurd ⟨_, h⟩ hor
        · exact ⟨_, rfl⟩
      obtain ⟨t, ht⟩ := this
      refine ⟨1, by omega, ?_⟩
      simp [sdkLoop, ht, ha0, show List.range 1 = [0] from rfl]

/-- The retry cap of the SDK strategy is 1 or 2, hence positive. -/
lemma sdkMaxRetries_pos (sizeBytes : Nat) : 0 < sdkMaxRetries sizeBytes := by
  unfold sdkMaxRetries
  split <;> omega

/-- C6 amended.  Of the three transcription strategies, only the SDK
strategy retries: (1) its backoff waits are always
`base, 2*base, 4*base, ...` — exponentially increasing powers of two times
the size-dependent base wait — and their number never exceeds the
size-dependent retry cap `sdkMaxRetries` (2 when the file exceeds 10 MB,
else 1); (2) on a permanent (non-connection) error of the first attempt the
SDK strategy fails immediately, with no retry and no waits; (3) on a
transient (connection) error of the first attempt it waits the base backoff
once and consults the second attempt; (4) the direct HTTP strategy issues
exactly one request — its outcome depends only on attempt 0 of its oracle,
transient or not; and (5) a strategy failure still falls through: when the
SDK strategy fails and the direct strategy succeeds, `transcribeAudioFile`
returns the direct strategy's result. -/
theorem c6_retry_only_in_sdk :
    (∀ (f : Nat → Except ApiErr String) (size : Nat),
      ∃ n, n ≤ sdkMaxRetries size ∧
        (transcribeWithSDK f size).2 =
          (List.range n).map (fun i => sdkBaseWaitTime size * 2 ^ i)) ∧
    (∀ f size e, f 0 = .error e → isConnectionError e = false →
      transcribeWithSDK f size = (.error (sdkFinalMsg e), [])) ∧
    (∀ f size e t, f 0 = .error e → isConnectionError e = true → f 1 = .ok t →
      transcribeWithSDK f size = (.ok t, [sdkBaseWaitTime size])) ∧
    (∀ (hasKey fileOnDisk : Bool) (o : Nat → HttpAttempt),
      transcribeAudioFileDirect hasKey fileOnDisk o =
        transcribeAudioFileDirect hasKey fileOnDisk (fun _ => o 0)) ∧
    (∀ (env : StratEnv) (size : Nat) (msg t : String),
      (transcribeWithSDK env.sdk size).1 = .error msg →
      transcribeAudioFileDirect env.hasKey env.fileOnDisk env.http = .ok t →
      (transcribeAudioFile env size).1 = .ok t) := by
  refine ⟨?_, ?_, ?_, ?_, ?_⟩
  · intro f size
    unfold transcribeWithSDK
    cases hor : f 0 with
    | ok t => exact ⟨0, by omega, by simp [sdkLoop, hor]⟩
    | error e =>
      by_cases hc : 0 < sdkMaxRetries size ∧ isConnectionError e = true
      · obtain ⟨n, hn, hw⟩ :=
          sdkLoop_waits f (sdkBaseWaitTime size) (sdkMaxRetries size)
            (sdkMaxRetries size) 1 (by omega)
        refine ⟨n, by omega, ?_⟩
        simp only [sdkLoop, hor, hc, and_self, if_true, if_pos rfl,
          List.nil_append]
        simpa using hw
      · exact ⟨0, by omega, by simp [sdkLoop, hor, hc]⟩
  · intro f size e h0 hnc
    unfold transcribeWithSDK
    have : ¬ (0 < sdkMaxRetries size ∧ isConnectionError e = true) := by
      simp [hnc]
    simp [sdkLoop, h0, this]
  · intro f size e t h0 hcn h1
    unfold transcribeWithSDK
    obtain ⟨k, hk⟩ : ∃ k, sdkMaxRetries size = k + 1 :=
      ⟨sdkMaxRetries size - 1, by have := sdkMaxRetries_pos size; omega⟩
    rw [hk]
    have hc : 0 < k + 1 ∧ isConnectionError e = true := ⟨by omega, hcn⟩
    simp [sdkLoop, h0, hc, h1]
  · intro hasKey fileOnDisk o
    rfl
  · intro env size msg t h1 h2
    unfold transcribeAudioFile
    rw [h1, h2]

/-- C6 counterexample.  The direct HTTP strategy hits a transient error
(the 5-minute timeout) on its only request and fails immediately: it never
retries, even though a second attempt would have returned a 200 response —
contradicting the claim that every transcription strategy retries transient
errors with exponential backoff. -/
theorem c6_counterexample :
    transcribeAudioFileDirect true true httpOracleTimeout =
      .error "Direct HTTP request timeout after 5 minutes" ∧
    httpOracleTimeout 1 = .completed 200 "hello" :=
  ⟨rfl, rfl⟩

/-- C6 amended witness: a permanent SDK error (bad API key) on a 5 MB file
fails after exactly one attempt, with no backoff waits. -/
theorem c6_retry_only_in_sdk_witness :
    transcribeWithSDK sdkOraclePermanent 5242880 =
      (.error (sdkFinalMsg ⟨"Incorrect API key provided", none, some "invalid api key"⟩),
        []) :=
  c6_retry_only_in_sdk.2.1 sdkOraclePermanent 5242880
    ⟨"Incorrect API key provided", none, some "invalid api key"⟩ rfl (by decide)

/-! ## C3: when chunking is and is not invoked -/

/-- C3 counterexample.  A 22 MB asset (23068672 bytes) is under the 25 MB
per-call limit, yet when the SDK and direct strategies fail the chunk
strategy splits it (the chunk-splitting threshold in
`transcribeWithSmallChunks` is 20 MB, not the 25 MB provider limit), so
chunking is invoked for an under-limit asset. -/
theorem c3_counterexample :
    23068672 ≤ 26214400 ∧
    (transcribeAudioFile stratEnvChunked 23068672).2 = true := by
  exact ⟨by omega, rfl⟩

/-- C3 amended.  Chunking never happens for assets of at most 20 MB
(20971520 bytes): on every strategy path of `transcribeAudioFile` the chunk
strategy forwards such a file unsplit to the direct call.  (Assets between
20 MB and the 25 MB limit can be chunked when the SDK and direct strategies
both fail, as the counterexample shows.)  Moreover, for an asset at or
under the 25 MB limit, `transcribeAudio` performs no prefix split at all:
it goes straight to `transcribeAudioFile` on the original file. -/
theorem c3_no_chunk_at_most_20mb :
    (∀ (env : StratEnv) (sizeBytes : Nat), sizeBytes ≤ 20971520 →
      (transcribeAudioFile env sizeBytes).2 = false) ∧
    (∀ (env : AudioEnv), env.hasClient = true → env.fileOnDisk = true →
      env.sizeBytes ≤ 26214400 → transcribeAudio env = (env.tOrig, false)) := by
  constructor
  · intro env s hs
    unfold transcribeAudioFile
    cases h1 : (transcribeWithSDK env.sdk s).1
    · cases h2 :
        transcribeAudioFileDirect env.hasKey env.fileOnDisk env.http
      · simp [transcribeWithSmallChunks, Nat.le_of_lt, hs]
      · simp
    · simp
  · intro env h1 h2 h3
    simp [transcribeAudio, h1, h2, show ¬ 26214400 < env.sizeBytes from by omega]

/-- C3 amended witness: a 10 MB asset is processed without any chunk split
on the all-strategies path. -/
theorem c3_no_chunk_at_most_20mb_witness :
    (transcribeAudioFile stratEnvChunked 10485760).2 = false :=
  c3_no_chunk_at_most_20mb.1 stratEnvChunked 10485760 (by omega)

/-! ## Chunk-loop lemmas shared by C7 and C8 -/

/-- Unpack a good chunk: it was created above the size threshold and its
transcription succeeded. -/
lemma goodChunkB_spec (env : ChunkEnv) (i : Nat) (h : goodChunkB env i = true) :
    ∃ s t, env.create i = .made s ∧ 1048576 ≤ s * 10 ∧
      env.transcribe i = .ok t := by
  unfold goodChunkB at h
  cases hc : env.create i <;> rw [hc] at h
  · simp at h
  · simp at h
  · cases ht : env.transcribe i <;> rw [ht] at h
    · simp at h
    · exact ⟨_, _, rfl, by simpa using h, rfl⟩

/-- Prepending nothing changes nothing. -/
lemma withMade_nil (r : LoopRes) : withMade [] r = r := by
  cases r <;> simp [withMade]

/-- Running the loop through `f1` good chunks is the loop started `f1`
chunks later, on the accumulated combined text, with the `f1` consumed
chunk indices prepended to the record. -/
lemma chunkLoop_good_steps (env : ChunkEnv) :
    ∀ (f1 start f2 : Nat) (acc : String),
      (∀ k, k < f1 → goodChunkB env (start + k) = true) →
      chunkLoop env start (f1 + f2) acc =
        withMade (List.range' start f1)
          (chunkLoop env (start + f1) f2 (accAfter env start f1 acc)) := by
  intro f1
  induction f1 with
  | zero =>
    intro start f2 acc _
    simp only [Nat.zero_add, Nat.add_zero, List.range', accAfter]
    rw [withMade_nil]
  | succ k ih =>
    intro start f2 acc h
    obtain ⟨s, t, hc, hs, ht⟩ :=
      goodChunkB_spec env start (by simpa using h 0 (by omega))
    rw [show (k + 1) + f2 = (k + f2) + 1 from by omega]
    have hrec := ih (start + 1) f2 (appendPart acc start t) (fun j hj => by
      rw [show start + 1 + j = start + (j + 1) from by omega]
      exact h (j + 1) (by omega))
    simp only [chunkLoop, hc, ht]
    rw [if_neg (by omega : ¬ s * 10 < 1048576), hrec]
    have hacc : accAfter env start (k + 1) acc =
        accAfter env (start + 1) k (appendPart acc start t) := by
      simp only [accAfter, tOf, ht]
    rw [hacc, List.range'_succ, show start + (k + 1) = start + 1 + k from by omega]
    cases chunkLoop env (start + 1 + k) f2
        (accAfter env (start + 1) k (appendPart acc start t)) <;>
      simp [withMade]

/-- A transcription failure at a chunk index other than 0 breaks the loop,
returning the combined text so far with that chunk recorded. -/
lemma chunkLoop_break_tError (env : ChunkEnv) (j f : Nat) (acc : String)
    (s : Nat) (m : String) (hj : ¬ j = 0) (hc : env.create j = .made s)
    (hs : ¬ s * 10 < 1048576) (ht : env.transcribe j = .error m) :
    chunkLoop env j (f + 1) acc = .finished acc [j] := by
  simp only [chunkLoop, hc, ht]
  rw [if_neg hs, if_neg hj]

/-- A transcription failure at chunk index 0 throws out of the loop. -/
lemma chunkLoop_throw_first (env : ChunkEnv) (f : Nat) (acc : String)
    (s : Nat) (m : String) (hc : env.create 0 = .made s)
    (hs : ¬ s * 10 < 1048576) (ht : env.transcribe 0 = .error m) :
    chunkLoop env 0 (f + 1) acc =
      .thrown ("Failed to process first audio chunk: " ++ m) [0] := by
  simp only [chunkLoop, hc, ht]
  rw [if_neg hs]
  simp

/-- A string containing a non-whitespace character does not trim to the
empty string. -/
lemma jsTrim_ne_empty (s : String) (c : Char) (hc : c ∈ s.toList)
    (hw : c.isWhitespace = false) : jsTrim s ≠ "" := by
  unfold jsTrim
  intro h
  have h2 : ((s.toList.dropWhile Char.isWhitespace).reverse.dropWhile
      Char.isWhitespace).reverse = [] := congrArg String.data h
  rw [List.reverse_eq_nil_iff, List.dropWhile_eq_nil_iff] at h2
  have hcd : c ∈ s.toList.dropWhile Char.isWhitespace := by
    have := List.takeWhile_append_dropWhile (p := Char.isWhitespace)
      (l := s.toList)
    rw [← this] at hc
    rcases List.mem_append.mp hc with h3 | h3
    · exact absurd (List.mem_takeWhile_imp h3) (by simp [hw])
    · exact h3
  have := h2 c (List.mem_reverse.mpr hcd)
  simp [hw] at this

/-- Appending a part with non-trivial text puts a `[` into the combined
string. -/
lemma appendPart_bracket (acc : String) (i : Nat) (t : String)
    (ht : jsTrim t ≠ "") : '[' ∈ (appendPart acc i t).toList := by
  unfold appendPart
  rw [if_neg ht]
  show '[' ∈ (_ ++ "[Part " ++ _ ++ _ ++ _ : String).data
  simp [String.data_append]

/-- Appending a part preserves a `[` already present in the combined
string. -/
lemma appendPart_keeps_bracket (acc : String) (i : Nat) (t : String)
    (h : '[' ∈ acc.toList) : '[' ∈ (appendPart acc i t).toList := by
  unfold appendPart
  by_cases he : jsTrim t = ""
  · rw [if_pos he]
    exact h
  · rw [if_neg he]
    show '[' ∈ (_ ++ "[Part " ++ _ ++ _ ++ _ : String).data
    simp [String.data_append]

/-- The accumulation over any number of chunks preserves a `[` in the
combined string. -/
lemma accAfter_keeps_bracket (env : ChunkEnv) :
    ∀ (f start : Nat) (acc : String), '[' ∈ acc.toList →
      '[' ∈ (accAfter env start f acc).toList := by
  intro f
  induction f with
  | zero => intro start acc h; simpa [accAfter] using h
  | succ k ih =>
    intro start acc h
    simp only [accAfter]
    exact ih (start + 1) _ (appendPart_keeps_bracket acc start _ h)

/-- When the first chunk transcribed to non-trivial text, the combined
transcription of `j ≥ 1` chunks does not trim to the empty string. -/
lemma partsConcat_trim_ne (env : ChunkEnv) (j : Nat) (hj : 1 ≤ j)
    (h0 : jsTrim (tOf env 0) ≠ "") : jsTrim (partsConcat env j) ≠ "" := by
  obtain ⟨k, rfl⟩ : ∃ k, j = k + 1 := ⟨j - 1, by omega⟩
  refine jsTrim_ne_empty _ '[' ?_ (by decide)
  unfold partsConcat
  have h1 : accAfter env 0 (k + 1) "" =
      accAfter env 1 k (appendPart "" 0 (tOf env 0)) := by
    simp only [accAfter]
  rw [h1]
  exact accAfter_keeps_bracket env k 1 _ (appendPart_bracket "" 0 _ h0)

/-! ## C7: chunk concatenation, early stop, first-chunk failure -/

/-- C7.  The chunked strategy transcribes each chunk independently and
concatenates the texts in chunk order with `[Part 1]`, `[Part 2]`, ...
labels, as `partsConcat` makes explicit.  Conjunct 1: a chunk-creation
failure on the first chunk fails the whole call.  Conjunct 2: a
transcription failure on the first chunk fails the whole call.  Conjunct 3:
when the first `j ≥ 1` chunks are processed successfully (the first with
non-trivial text) and chunk `j`'s transcription fails, the loop stops early
and the call returns the partial concatenation of the first `j` parts (the
failed chunk still counts towards the chunk-count note, as it was pushed
before transcription).  Conjunct 4: when all 5 chunks are good, the call
returns the full concatenation. -/
theorem c7_chunk_concat_early_stop :
    (∀ (env : ChunkEnv) (size : Nat) (direct : Except String String) (m : String),
      20971520 < size → env.create 0 = .errC m →
      transcribeWithSmallChunks env size direct =
        (.error ("Small chunk processing failed: " ++
          ("Failed to process first audio chunk: " ++ m)), true)) ∧
    (∀ (env : ChunkEnv) (size : Nat) (direct : Except String String)
      (s : Nat) (m : String),
      20971520 < size → env.create 0 = .made s → 1048576 ≤ s * 10 →
      env.transcribe 0 = .error m →
      transcribeWithSmallChunks env size direct =
        (.error ("Small chunk processing failed: " ++
          ("Failed to process first audio chunk: " ++ m)), true)) ∧
    (∀ (env : ChunkEnv) (size : Nat) (direct : Except String String)
      (s : Nat) (m : String) (j : Nat),
      20971520 < size → 1 ≤ j → j < 5 →
      (∀ k, k < j → goodChunkB env k = true) → jsTrim (tOf env 0) ≠ "" →
      env.create j = .made s → 1048576 ≤ s * 10 →
      env.transcribe j = .error m →
      transcribeWithSmallChunks env size direct =
        (.ok (partsConcat env j ++ smallChunksNote (j + 1)), true)) ∧
    (∀ (env : ChunkEnv) (size : Nat) (direct : Except String String),
      20971520 < size → (∀ k, k < 5 → goodChunkB env k = true) →
      jsTrim (tOf env 0) ≠ "" →
      transcribeWithSmallChunks env size direct =
        (.ok (partsConcat env 5 ++ smallChunksNote 5), true)) := by
  refine ⟨?_, ?_, ?_, ?_⟩
  · intro env size direct m hsize hc
    unfold transcribeWithSmallChunks
    rw [if_neg (by omega : ¬ size ≤ 20971520)]
    rw [show (5 : Nat) = 4 + 1 from by norm_num]
    simp [chunkLoop, hc]
  · intro env size direct s m hsize hc hs ht
    unfold transcribeWithSmallChunks
    rw [if_neg (by omega : ¬ size ≤ 20971520)]
    rw [show (5 : Nat) = 4 + 1 from by norm_num]
    rw [chunkLoop_throw_first env 4 "" s m hc (by omega) ht]
  · intro env size direct s m j hsize hj1 hj5 hgood h0 hc hs ht
    unfold transcribeWithSmallChunks
    rw [if_neg (by omega : ¬ size ≤ 20971520)]
    rw [show (5 : Nat) = j + (5 - j) from by omega]
    rw [chunkLoop_good_steps env j 0 (5 - j) ""
      (fun k hk => by simpa using hgood k hk)]
    obtain ⟨d, hd⟩ : ∃ d, 5 - j = d + 1 := ⟨5 - j - 1, by omega⟩
    rw [hd, Nat.zero_add,
      chunkLoop_break_tError env j d (accAfter env 0 j "") s m
        (by omega) hc (by omega) ht]
    simp only [withMade]
    rw [if_neg (by simpa [partsConcat] using partsConcat_trim_ne env j hj1 h0)]
    simp [partsConcat, List.length_range']
  · intro env size direct hsize hgood h0
    unfold transcribeWithSmallChunks
    rw [if_neg (by omega : ¬ size ≤ 20971520)]
    rw [show (5 : Nat) = 5 + 0 from by omega]
    rw [chunkLoop_good_steps env 5 0 0 ""
      (fun k hk => by simpa using hgood k hk)]
    simp only [chunkLoop, withMade, List.append_nil, Nat.zero_add]
    rw [if_neg (by
      simpa [partsConcat] using partsConcat_trim_ne env 5 (by omega) h0)]
    simp [partsConcat, List.length_range']

/-- The chunk indices recorded by the loop are always a consecutive block
starting at the initial index, no longer than the fuel. -/
lemma chunkLoop_made_range (env : ChunkEnv) :
    ∀ (fuel start : Nat) (acc : String),
      ∃ k, k ≤ fuel ∧
        madeOf (chunkLoop env start fuel acc) = List.range' start k := by
  intro fuel
  induction fuel with
  | zero => intro start acc; exact ⟨0, by omega, rfl⟩
  | succ f ih =>
    intro start acc
    cases hc : env.create start with
    | errC m =>
      refine ⟨0, by omega, ?_⟩
      by_cases h0 : start = 0
      · subst h0
        simp [chunkLoop, hc, madeOf, List.range']
      · simp [chunkLoop, hc, h0, madeOf, List.range']
    | missing =>
      exact ⟨0, by omega, by simp [chunkLoop, hc, madeOf, List.range']⟩
    | made s =>
      by_cases hs : s * 10 < 1048576
      · exact ⟨0, by omega, by simp [chunkLoop, hc, hs, madeOf, List.range']⟩
      · cases ht : env.transcribe start with
        | error m =>
          refine ⟨1, by omega, ?_⟩
          by_cases h0 : start = 0
          · subst h0
            simp [chunkLoop, hc, hs, ht, madeOf, List.range']
          · simp [chunkLoop, hc, hs, ht, h0, madeOf, List.range']
        | ok t =>
          obtain ⟨k, hk, hm⟩ := ih (start + 1) (appendPart acc start t)
          refine ⟨k + 1, by omega, ?_⟩
          simp only [chunkLoop, hc, ht]
          rw [if_neg hs]
          cases hrec : chunkLoop env (start + 1) f (appendPart acc start t) with
          | thrown m2 made2 =>
            rw [hrec] at hm
            simp only [madeOf] at hm ⊢
            rw [List.range'_succ, hm]
          | finished c2 made2 =>
            rw [hrec] at hm
            simp only [madeOf] at hm ⊢
            rw [List.range'_succ, hm]

/-- When chunk creation never throws and every surviving chunk transcribes
successfully, the recorded chunk indices are exactly the longest initial
block of indices whose chunk was created above the size threshold. -/
lemma chunkLoop_made_takeWhile (env : ChunkEnv)
    (hne : ∀ i m, env.create i ≠ .errC m)
    (hok : ∀ i, okCreatedB env i = true → ∃ t, env.transcribe i = .ok t) :
    ∀ (fuel start : Nat) (acc : String),
      madeOf (chunkLoop env start fuel acc) =
        (List.range' start fuel).takeWhile (okCreatedB env) := by
  intro fuel
  induction fuel with
  | zero => intro start acc; rfl
  | succ f ih =>
    intro start acc
    rw [List.range'_succ, List.takeWhile_cons]
    cases hc : env.create start with
    | errC m => exact absurd hc (hne start m)
    | missing =>
      have hop : okCreatedB env start = false := by simp [okCreatedB, hc]
      simp [chunkLoop, hc, madeOf, hop]
    | made s =>
      by_cases hs : s * 10 < 1048576
      · have hop : okCreatedB env start = false := by
          simp [okCreatedB, hc]
          omega
        simp [chunkLoop, hc, hs, madeOf, hop]
      · have hop : okCreatedB env start = true := by
          simp [okCreatedB, hc]
          omega
        obtain ⟨t, ht⟩ := hok start hop
        simp only [chunkLoop, hc, ht, hop, if_true]
        rw [if_neg hs]
        have hrec := ih (start + 1) (appendPart acc start t)
        cases hr : chunkLoop env (start + 1) f (appendPart acc start t) with
        | thrown m2 made2 =>
          rw [hr] at hrec
          simp only [madeOf] at hrec ⊢
          rw [hrec]
        | finished c2 made2 =>
          rw [hr] at hrec
          simp only [madeOf] at hrec ⊢
          rw [hrec]

/-! ## C8: chunk production bounds and stopping -/

/-- C8.  Conjunct 1 (unconditional): the chunk loop records at most
`maxChunks` chunks; the recorded indices are exactly `0, 1, ..., k-1` in
order; and for any positive chunk duration `cm` the resulting start offsets
`0, cm, 2*cm, ...` are strictly increasing.  Conjunct 2: when chunk
creation never throws and every surviving chunk transcribes successfully,
chunk production stops exactly at the first chunk that is absent or below
the 0.1 MB minimum-size threshold, or when `maxChunks` is reached,
whichever comes first: the record equals the longest initial block of
creation-ok indices below `maxChunks`. -/
theorem c8_chunk_production :
    (∀ (env : ChunkEnv) (mc cm : Nat), 0 < cm →
      (madeOf (chunkLoop env 0 mc "")).length ≤ mc ∧
      madeOf (chunkLoop env 0 mc "") =
        List.range (madeOf (chunkLoop env 0 mc "")).length ∧
      ((madeOf (chunkLoop env 0 mc "")).map (fun i => i * cm)).Pairwise (· < ·)) ∧
    (∀ (env : ChunkEnv) (mc : Nat),
      (∀ i m, env.create i ≠ .errC m) →
      (∀ i, okCreatedB env i = true → ∃ t, env.transcribe i = .ok t) →
      madeOf (chunkLoop env 0 mc "") =
        (List.range mc).takeWhile (okCreatedB env)) := by
  constructor
  · intro env mc cm hcm
    obtain ⟨k, hk, hm⟩ := chunkLoop_made_range env mc 0 ""
    rw [hm, ← List.range_eq_range']
    refine ⟨by simpa using hk, by simp, ?_⟩
    exact (List.pairwise_lt_range k).map _
      (fun a b h => mul_lt_mul_of_pos_right h hcm)
  · intro env mc hne hok
    rw [chunkLoop_made_takeWhile env hne hok mc 0 "", ← List.range_eq_range']

/-- C8 witness: on the three-good-chunks run the recorded indices are the
initial creation-ok block of `range 5`, and the start offsets for a
10-minute chunk duration are strictly increasing. -/
theorem c8_chunk_production_witness :
    ((madeOf (chunkLoop chunkEnvThree 0 5 "")).map (fun i => i * 10)).Pairwise
      (· < ·) ∧
    madeOf (chunkLoop chunkEnvThree 0 5 "") =
      (List.range 5).takeWhile (okCreatedB chunkEnvThree) :=
  ⟨(c8_chunk_production.1 chunkEnvThree 5 10 (by decide)).2.2,
    c8_chunk_production.2 chunkEnvThree 5
      (fun i m => by by_cases h : i ≤ 2 <;> simp [chunkEnvThree, h])
      (fun i _ => ⟨_, rfl⟩)⟩

/-- C7 witness: with chunk 1 transcribing to `hello` and chunk 2's
transcription failing, the call returns the partial one-part concatenation
and counts the two pushed chunks. -/
theorem c7_chunk_concat_early_stop_witness :
    transcribeWithSmallChunks chunkEnvStops 30000000 (.error "x") =
      (.ok (partsConcat chunkEnvStops 1 ++ smallChunksNote 2), true) :=
  c7_chunk_concat_early_stop.2.2.1 chunkEnvStops 30000000 (.error "x")
    1048576 "boom" 1 (by omega) (by omega) (by omega)
    (fun k hk => by interval_cases k <;> rfl) (by decide)
    (by rfl) (by omega) (by rfl)
